import Mathlib

/-!
Shallow embedding of the Executors framework (task scheduler with
deferred-value combinators): the task lifecycle state machine, the
unbounded blocking queue, the executor operations and the combinator
constructors, translated from executors.h and the implementation file.

Machine time (std::chrono::system_clock::time_point) is modelled as Nat;
an exception_ptr is modelled as Option Nat, with none standing for the
null exception pointer.  A std::shared_ptr<Task> handle that may be null
is modelled as Option Task.  Each mutex-protected member function becomes
a pure function on the task value; the ambient clock now() becomes an
explicit Nat argument.
-/

namespace Executors

/-- Status of a task: enum class TaskStatus of executors.h. -/
inductive TaskStatus where
  | kPending
  | kCompleted
  | kFailed
  | kCanceled
deriving DecidableEq, Repr

/-- Model of std::exception_ptr: none is the null exception pointer. -/
abbrev ExcPtr := Option Nat

/-- A Task: status, error slot, dependency deque, trigger deque and the
time trigger (deadline, a wall-clock instant, modelled as Nat).
Dependency and trigger entries are shared_ptr handles, hence Option Task
with none for a null handle.  The mutex and condition variable of the
source are synchronization, not state, and have no counterpart here. -/
inductive Task : Type where
  | mk (status : TaskStatus) (e_ptr : ExcPtr)
       (dependencies : List (Option Task))
       (triggers : List (Option Task))
       (deadline : Nat) : Task

/-- Field accessor for the status. -/
def Task.status : Task → TaskStatus
  | .mk s _ _ _ _ => s

/-- Field accessor for the error slot. -/
def Task.e_ptr : Task → ExcPtr
  | .mk _ e _ _ _ => e

/-- Field accessor for the dependency deque. -/
def Task.dependencies : Task → List (Option Task)
  | .mk _ _ d _ _ => d

/-- Field accessor for the trigger deque. -/
def Task.triggers : Task → List (Option Task)
  | .mk _ _ _ tr _ => tr

/-- Field accessor for the time trigger. -/
def Task.deadline : Task → Nat
  | .mk _ _ _ _ dl => dl

/-- Task::IsCompleted: status equals kCompleted. -/
def Task.IsCompleted (t : Task) : Bool := t.status = TaskStatus.kCompleted

/-- Task::IsFailed: status equals kFailed. -/
def Task.IsFailed (t : Task) : Bool := t.status = TaskStatus.kFailed

/-- Task::IsCanceled: status equals kCanceled. -/
def Task.IsCanceled (t : Task) : Bool := t.status = TaskStatus.kCanceled

/-- Task::IsFinished: status differs from kPending. -/
def Task.IsFinished (t : Task) : Bool := t.status ≠ TaskStatus.kPending

/-- Task::GetError: returns the error slot. -/
def Task.GetError (t : Task) : ExcPtr := t.e_ptr

/-- Task::AddDependency: push_back the handle onto the dependency deque. -/
def Task.AddDependency : Task → Option Task → Task
  | .mk s e d tr dl, dep => .mk s e (d ++ [dep]) tr dl

/-- Task::AddTrigger: push_back the handle onto the trigger deque. -/
def Task.AddTrigger : Task → Option Task → Task
  | .mk s e d tr dl, trg => .mk s e d (tr ++ [trg]) dl

/-- Task::SetTimeTrigger: overwrite the deadline. -/
def Task.SetTimeTrigger : Task → Nat → Task
  | .mk s e d tr _, instant => .mk s e d tr instant

/-- Task::Cancel: transition to kCanceled only when still kPending;
otherwise leave the task unchanged (the notify_all is synchronization). -/
def Task.Cancel : Task → Task
  | .mk s e d tr dl =>
    if s = TaskStatus.kPending then .mk TaskStatus.kCanceled e d tr dl
    else .mk s e d tr dl

/-- Task::SaveError: store the exception pointer into the error slot and
set the status to kFailed, unconditionally. -/
def Task.SaveError : Task → ExcPtr → Task
  | .mk _ _ d tr dl, e => .mk TaskStatus.kFailed e d tr dl

/-- Task::CompleteTask: set the status to kCompleted, unconditionally. -/
def Task.CompleteTask : Task → Task
  | .mk _ e d tr dl => .mk TaskStatus.kCompleted e d tr dl

/-- One iteration test of the dependency loop of Task::CanBeExecuted:
the loop returns false on the first entry with (dependency AND NOT
dependency->IsFinished()), i.e. a non-null unfinished dependency. -/
def depBlocks : Option Task → Bool
  | none => false
  | some dep => !dep.IsFinished

/-- One iteration test of the trigger loop of Task::CanBeExecuted: the
loop returns true on the first entry with (trigger AND
trigger->IsFinished()), i.e. a non-null finished trigger. -/
def trigFires : Option Task → Bool
  | none => false
  | some trg => trg.IsFinished

/-- Task::CanBeExecuted, with the ambient clock now() passed explicitly:
first the dependency loop (early false), then the clock comparison
(early false when now < deadline), then the trigger loop (early true),
finally return triggers_.empty(). -/
def Task.CanBeExecuted (t : Task) (now : Nat) : Bool :=
  if t.dependencies.any depBlocks then false
  else if now < t.deadline then false
  else if t.triggers.any trigFires then true
  else t.triggers.isEmpty

/-- UnboundedBlockingQueue: closed flag and FIFO buffer of handles. -/
structure UnboundedBlockingQueue (α : Type) where
  stopped : Bool := false
  buffer : List α := []

/-- UnboundedBlockingQueue::Put: when stopped return false leaving the
buffer untouched, otherwise push_back and return true. -/
def UnboundedBlockingQueue.Put (q : UnboundedBlockingQueue α) (t : α) :
    UnboundedBlockingQueue α × Bool :=
  if q.stopped then (q, false)
  else ({ q with buffer := q.buffer ++ [t] }, true)

/-- UnboundedBlockingQueue::CloseImpl: set stopped, clearing the buffer
when asked to. -/
def UnboundedBlockingQueue.CloseImpl (q : UnboundedBlockingQueue α)
    (clear : Bool) : UnboundedBlockingQueue α :=
  { stopped := true, buffer := if clear then [] else q.buffer }

/-- UnboundedBlockingQueue::Close: CloseImpl without clearing. -/
def UnboundedBlockingQueue.Close (q : UnboundedBlockingQueue α) :
    UnboundedBlockingQueue α :=
  q.CloseImpl false

/-- UnboundedBlockingQueue::Cancel: CloseImpl with clearing. -/
def UnboundedBlockingQueue.Cancel (q : UnboundedBlockingQueue α) :
    UnboundedBlockingQueue α :=
  q.CloseImpl true

/-- UnboundedBlockingQueue::IsClosed: read the stopped flag. -/
def UnboundedBlockingQueue.IsClosed (q : UnboundedBlockingQueue α) : Bool :=
  q.stopped

/-- Executor::Submit: when the channel is closed, Cancel the task and do
not enqueue; when the task is already Canceled, do nothing; otherwise
Put it on the channel (the Bool result of Put is discarded, as in the
source). -/
def Executor.Submit (q : UnboundedBlockingQueue Task) (task : Task) :
    UnboundedBlockingQueue Task × Task :=
  if q.IsClosed then (q, task.Cancel)
  else if task.IsCanceled then (q, task)
  else ((q.Put task).fst, task)

/-- The three possible outcomes of one iteration of the worker loop for
a handle drawn from the channel: put the handle back at the tail, drop
it without running, or execute its Run body. -/
inductive WorkerAction where
  | requeue
  | discard
  | execute
deriving DecidableEq, Repr

/-- The decision logic of one iteration of Executor::RunTask for a
non-null handle drawn from the channel (the while condition already
excludes a null result of Take): when NOT CanBeExecuted, Put the handle
back and continue; when IsCanceled, continue without re-enqueueing;
otherwise run the task body. -/
def Executor.runTaskStep (task : Task) (now : Nat) : WorkerAction :=
  if !(task.CanBeExecuted now) then WorkerAction.requeue
  else if task.IsCanceled then WorkerAction.discard
  else WorkerAction.execute

/-- Future of T after Wait returned: the terminal status, the error slot
and the stored value member (default-constructed unless Run assigned it).
The callable member is not state observed by Get and is omitted. -/
structure Future (T : Type) where
  status : TaskStatus
  e_ptr : ExcPtr
  value : T

/-- Future::IsFinished, identical to Task::IsFinished. -/
def Future.IsFinished (f : Future T) : Bool := f.status ≠ TaskStatus.kPending

/-- Future<T>::Get, on the state after its internal Wait has returned
(status terminal): when IsFailed, rethrow_exception(GetError()),
modelled as Except.error of the error slot; otherwise return the stored
value member. -/
def Future.Get (f : Future T) : Except ExcPtr T :=
  if f.status = TaskStatus.kFailed then Except.error f.e_ptr
  else Except.ok f.value

/-- The lambda of Executor::WhenAllBeforeDeadline, evaluated over the
states the element futures have when the lambda runs: for each element
in order, when IsFinished, append the result of Get; a Get that throws
propagates out of the lambda (Except.error) and discards the vector. -/
def whenAllBeforeDeadlineThunk : List (Future T) → Except ExcPtr (List T)
  | [] => Except.ok []
  | f :: rest =>
    if f.IsFinished then
      match f.Get with
      | Except.error e => Except.error e
      | Except.ok v =>
        match whenAllBeforeDeadlineThunk rest with
        | Except.error e2 => Except.error e2
        | Except.ok vs => Except.ok (v :: vs)
    else whenAllBeforeDeadlineThunk rest

/-- The Task-level readiness wiring built by Executor::Invoke: a fresh
Future with empty deques and deadline defaulted to now() at
construction, then Submit.  Only the constructed wiring is modelled
here; now is the construction instant. -/
def Executor.Invoke (now : Nat) : Task :=
  Task.mk TaskStatus.kPending none [] [] now

/-- The wiring built by Executor::Then: a fresh Future, AddDependency of
the input, then Submit. -/
def Executor.Then (now : Nat) (input : Task) : Task :=
  (Executor.Invoke now).AddDependency (some input)

/-- The wiring built by Executor::WhenAll: the aggregating lambda is
handed to Invoke, and no dependency, trigger or time trigger is attached
to the returned Future. -/
def Executor.WhenAll (now : Nat) (all : List Task) : Task :=
  Executor.Invoke now

/-- The wiring built by Executor::WhenFirst: a fresh Future, AddTrigger
of every element in order, then Submit. -/
def Executor.WhenFirst (now : Nat) (all : List Task) : Task :=
  all.foldl (fun t e => t.AddTrigger (some e)) (Executor.Invoke now)

/-- The wiring built by Executor::WhenAllBeforeDeadline: a fresh Future,
SetTimeTrigger of the deadline, then Submit. -/
def Executor.WhenAllBeforeDeadline (now : Nat) (all : List Task)
    (deadline : Nat) : Task :=
  (Executor.Invoke now).SetTimeTrigger deadline

/-- Shared state of the claim-race model: the status field of one task
(guarded by the task mutex) and a count of how many times its Run body
has been entered. -/
structure RaceState where
  status : TaskStatus
  runCount : Nat

/-- One atomic section of Executor::RunTask at mutex granularity, for a
worker whose handle points at a task with no dependencies, no triggers
and deadline 0 (so CanBeExecuted is true whenever evaluated).  Program
counter 0: the CanBeExecuted call (one critical section; returns true
here); 1: the IsCanceled call (one critical section; a canceled task is
dropped, pc 4); 2: the Run body, executed outside the mutex; 3: the
CompleteTask call (one critical section); 4: this handle is done. -/
def workerSection (s : RaceState) (pc : Nat) : RaceState × Nat :=
  match pc with
  | 0 => (s, 1)
  | 1 => if s.status = TaskStatus.kCanceled then (s, 4) else (s, 2)
  | 2 => ({ s with runCount := s.runCount + 1 }, 3)
  | 3 => ({ s with status := TaskStatus.kCompleted }, 4)
  | _ => (s, pc)

/-- Interleaving of two workers that each drew a handle to the same task
from the channel (the handle was enqueued twice).  A schedule entry of
true lets the first worker run its next atomic section, false the
second. -/
def runSchedule : List Bool → RaceState × Nat × Nat → RaceState × Nat × Nat
  | [], st => st
  | b :: rest, (s, pc1, pc2) =>
    if b then
      match workerSection s pc1 with
      | (s2, pc) => runSchedule rest (s2, pc, pc2)
    else
      match workerSection s pc2 with
      | (s2, pc) => runSchedule rest (s2, pc1, pc)

/-- Claim C9 (confirmed): UnboundedBlockingQueue::Put returns false iff
the queue is closed; when it returns false the queue, in particular its
buffer, is unchanged and the handle has not been enqueued; when it
returns true the handle has been appended at the tail. -/
theorem put_false_iff_closed {α : Type} (q : UnboundedBlockingQueue α) (t : α) :
    ((q.Put t).snd = false ↔ q.IsClosed = true) ∧
    (q.IsClosed = true → (q.Put t).fst = q) ∧
    (q.IsClosed = false →
      (q.Put t).fst.buffer = q.buffer ++ [t] ∧ (q.Put t).snd = true) := by
  unfold UnboundedBlockingQueue.Put UnboundedBlockingQueue.IsClosed
  by_cases h : q.stopped <;> simp [h]

/-- Witness for C9 at concrete queues: Put on a closed queue reports
false, Put on an open empty queue stores the handle. -/
theorem put_false_iff_closed_witness :
    ((UnboundedBlockingQueue.mk true []).Put (0 : Nat)).snd = false ∧
    ((UnboundedBlockingQueue.mk false []).Put (0 : Nat)).fst.buffer = [0] :=
  ⟨(put_false_iff_closed (UnboundedBlockingQueue.mk true []) 0).1.mpr rfl,
   ((put_false_iff_closed (UnboundedBlockingQueue.mk false []) 0).2.2 rfl).1⟩

/-- Counterexample for claim C1: Get on a Canceled Future does return a
value, namely the stored value member (default-constructed, here 7),
and signals no Canceled error. -/
theorem get_canceled_returns_value :
    (Future.mk TaskStatus.kCanceled none (7 : Nat)).Get = Except.ok 7 := rfl

/-- Claim C1 (corrected): for a Future in a terminal state, Get on
Completed returns the stored value, Get on Failed rethrows the stored
error, and Get on Canceled returns the stored value member without
signaling any Canceled error (IsFailed is false there, so the rethrow
branch is skipped and the default-constructed value member is
returned). -/
theorem future_get_cases {T : Type} (f : Future T) :
    (f.status = TaskStatus.kCompleted → f.Get = Except.ok f.value) ∧
    (f.status = TaskStatus.kFailed → f.Get = Except.error f.e_ptr) ∧
    (f.status = TaskStatus.kCanceled → f.Get = Except.ok f.value) := by
  unfold Future.Get
  refine ⟨fun h => ?_, fun h => ?_, fun h => ?_⟩ <;> simp [h]

/-- Witness for C1 at concrete futures in each terminal status. -/
theorem future_get_cases_witness :
    (Future.mk TaskStatus.kCompleted none (5 : Nat)).Get = Except.ok 5 ∧
    (Future.mk TaskStatus.kFailed (some 3) (0 : Nat)).Get = Except.error (some 3) ∧
    (Future.mk TaskStatus.kCanceled none (0 : Nat)).Get = Except.ok 0 :=
  ⟨(future_get_cases (Future.mk TaskStatus.kCompleted none 5)).1 rfl,
   (future_get_cases (Future.mk TaskStatus.kFailed (some 3) 0)).2.1 rfl,
   (future_get_cases (Future.mk TaskStatus.kCanceled none 0)).2.2 rfl⟩

/-- Counterexample for claim C2: CompleteTask on a task already in the
terminal status kCanceled moves it to kCompleted, so not every
operation preserves a non-Pending status. -/
theorem completeTask_overwrites_canceled :
    (Task.mk TaskStatus.kCanceled none [] [] 0).IsCanceled = true ∧
    ((Task.mk TaskStatus.kCanceled none [] [] 0).CompleteTask).status =
      TaskStatus.kCompleted :=
  ⟨rfl, rfl⟩

/-- Claim C2 (corrected): Cancel alone is monotonic, transitioning
kPending to kCanceled and leaving a task with any other status entirely
unchanged; CompleteTask and SaveError, by contrast, set the status
unconditionally to kCompleted resp. kFailed, overwriting any terminal
status, so monotonicity relies on their callers and is not enforced by
the operations themselves. -/
theorem status_transition_ops (t : Task) (e : ExcPtr) :
    (t.status = TaskStatus.kPending → t.Cancel.status = TaskStatus.kCanceled) ∧
    (t.status ≠ TaskStatus.kPending → t.Cancel = t) ∧
    t.CompleteTask.status = TaskStatus.kCompleted ∧
    (t.SaveError e).status = TaskStatus.kFailed ∧ (t.SaveError e).e_ptr = e := by
  match t with
  | .mk s err d tr dl =>
    unfold Task.Cancel Task.CompleteTask Task.SaveError Task.status Task.e_ptr
    by_cases h : s = TaskStatus.kPending <;> simp [h]

/-- Witness for C2 at concrete tasks: Cancel moves a pending task to
kCanceled and leaves a completed task unchanged. -/
theorem status_transition_ops_witness :
    ((Task.mk TaskStatus.kPending none [] [] 0).Cancel).status =
      TaskStatus.kCanceled ∧
    (Task.mk TaskStatus.kCompleted none [] [] 0).Cancel =
      Task.mk TaskStatus.kCompleted none [] [] 0 :=
  ⟨(status_transition_ops (Task.mk TaskStatus.kPending none [] [] 0) none).1 rfl,
   (status_transition_ops (Task.mk TaskStatus.kCompleted none [] [] 0) none).2.1
     (by decide)⟩

/-- Counterexample for claim C3: with a single element future that is
Failed with error 3, the WhenAllBeforeDeadline lambda calls Get on it
(a Failed element IS finished) and the rethrown error propagates out,
so the aggregate Future does become Failed because an element is
Failed. -/
theorem wabd_fails_on_failed_element :
    whenAllBeforeDeadlineThunk [Future.mk TaskStatus.kFailed (some 3) (0 : Nat)] =
      Except.error (some 3) := rfl

/-- Claim C3 (corrected): the WhenAllBeforeDeadline lambda silently
omits unfinished elements and appends the Get results of finished ones,
but a Failed element is finished and its Get rethrows: the lambda
results in the error of the first Failed element when one exists (the
aggregate Future then fails with that element error), and otherwise in
the stored values of the finished elements in order (a Canceled element
contributes its default-constructed value member). -/
theorem wabd_thunk_characterization {T : Type} (futs : List (Future T)) :
    whenAllBeforeDeadlineThunk futs =
      match futs.find? (fun f => f.status == TaskStatus.kFailed) with
      | some f => Except.error f.e_ptr
      | none => Except.ok ((futs.filter Future.IsFinished).map Future.value) := by
  induction futs with
  | nil => rfl
  | cons f rest ih =>
    unfold whenAllBeforeDeadlineThunk
    cases hs : f.status with
    | kPending =>
      simp [Future.IsFinished, hs, List.find?_cons, List.filter_cons, ih]
    | kCompleted =>
      simp only [Future.IsFinished, Future.Get, hs, List.find?_cons,
        List.filter_cons, ih]
      cases hfind : rest.find? (fun g => g.status == TaskStatus.kFailed) <;> rfl
    | kFailed =>
      simp [Future.IsFinished, Future.Get, hs, List.find?_cons]
    | kCanceled =>
      simp only [Future.IsFinished, Future.Get, hs, List.find?_cons,
        List.filter_cons, ih]
      cases hfind : rest.find? (fun g => g.status == TaskStatus.kFailed) <;> rfl

/-- Counterexample for claim C4: WhenAll of a one-element vector yields
a Future whose dependency set is empty rather than equal to the input
vector. -/
theorem whenAll_no_dependencies :
    (Executor.WhenAll 0 [Task.mk TaskStatus.kPending none [] [] 0]).dependencies
      = [] ∧
    (Executor.WhenAll 0 [Task.mk TaskStatus.kPending none [] [] 0]).dependencies
      ≠ [some (Task.mk TaskStatus.kPending none [] [] 0)] := by
  refine ⟨rfl, ?_⟩
  simp [Executor.WhenAll, Executor.Invoke, Task.dependencies]

/-- Claim C4 (corrected): the Future constructed by WhenAll(vec) is
built by handing the aggregating lambda to Invoke, so it carries no
readiness wiring at all: its dependency set and trigger set are empty
and its deadline is the construction instant, for every input vector.
Its lambda runs as soon as a worker draws it; ordering is enforced
inside the lambda, which blocks in Get on each element, not by the
dependency readiness rules. -/
theorem whenAll_wiring (now : Nat) (all : List Task) :
    (Executor.WhenAll now all).dependencies = [] ∧
    (Executor.WhenAll now all).triggers = [] ∧
    (Executor.WhenAll now all).deadline = now :=
  ⟨rfl, rfl, rfl⟩

/-- Counterexample for claim C5: a canceled task that still has an
unfinished dependency fails the CanBeExecuted check, which the worker
evaluates first, so the worker re-enqueues this canceled task at the
tail instead of discarding it. -/
theorem canceled_task_requeued :
    (Task.mk TaskStatus.kCanceled none
      [some (Task.mk TaskStatus.kPending none [] [] 0)] [] 0).IsCanceled = true ∧
    Executor.runTaskStep
      (Task.mk TaskStatus.kCanceled none
        [some (Task.mk TaskStatus.kPending none [] [] 0)] [] 0) 0 =
      WorkerAction.requeue :=
  ⟨rfl, rfl⟩

/-- Claim C5 (corrected): the worker checks CanBeExecuted before
IsCanceled: a handle is re-enqueued exactly when CanBeExecuted is
false, regardless of cancellation, so a canceled but not-yet-executable
task is re-enqueued rather than discarded; a task is discarded exactly
when it is executable and canceled; it is run exactly when it is
executable and not canceled. -/
theorem runTaskStep_cases (task : Task) (now : Nat) :
    (Executor.runTaskStep task now = WorkerAction.requeue ↔
      task.CanBeExecuted now = false) ∧
    (Executor.runTaskStep task now = WorkerAction.discard ↔
      task.CanBeExecuted now = true ∧ task.IsCanceled = true) ∧
    (Executor.runTaskStep task now = WorkerAction.execute ↔
      task.CanBeExecuted now = true ∧ task.IsCanceled = false) := by
  unfold Executor.runTaskStep
  by_cases h1 : task.CanBeExecuted now <;>
    by_cases h2 : task.IsCanceled <;> simp [h1, h2]

/-- Claim C6 (confirmed): Executor::Submit with a closed channel
cancels the task (kPending becomes kCanceled, any other status is
untouched) and leaves the queue unchanged, so the task is never
enqueued and no worker can reach its Run; with an open channel and an
already canceled task nothing happens at all; otherwise the task is
appended to the queue buffer unchanged. -/
theorem submit_spec (q : UnboundedBlockingQueue Task) (task : Task) :
    (q.IsClosed = true →
      (Executor.Submit q task).fst = q ∧
      (Executor.Submit q task).snd = task.Cancel ∧
      (task.status = TaskStatus.kPending →
        (Executor.Submit q task).snd.status = TaskStatus.kCanceled)) ∧
    (q.IsClosed = false → task.IsCanceled = true →
      Executor.Submit q task = (q, task)) ∧
    (q.IsClosed = false → task.IsCanceled = false →
      (Executor.Submit q task).fst.buffer = q.buffer ++ [task] ∧
      (Executor.Submit q task).snd = task) := by
  unfold Executor.Submit UnboundedBlockingQueue.Put UnboundedBlockingQueue.IsClosed
  match task with
  | .mk s e d tr dl =>
    unfold Task.Cancel Task.IsCanceled Task.status
    cases s <;> by_cases hq : q.stopped <;> simp [hq]

/-- Witness for C6 at concrete inputs: a pending task submitted to a
closed queue comes back canceled with the queue unchanged, and a
pending task submitted to an open queue lands in the buffer. -/
theorem submit_spec_witness :
    ((Executor.Submit (UnboundedBlockingQueue.mk true [])
        (Task.mk TaskStatus.kPending none [] [] 0)).snd).status =
      TaskStatus.kCanceled ∧
    (Executor.Submit (UnboundedBlockingQueue.mk false [])
        (Task.mk TaskStatus.kPending none [] [] 0)).fst.buffer =
      [Task.mk TaskStatus.kPending none [] [] 0] :=
  ⟨((submit_spec (UnboundedBlockingQueue.mk true [])
      (Task.mk TaskStatus.kPending none [] [] 0)).1 rfl).2.2 rfl,
   ((submit_spec (UnboundedBlockingQueue.mk false [])
      (Task.mk TaskStatus.kPending none [] [] 0)).2.2 rfl rfl).1⟩

/-- Helper: a scan of a list of non-null handles is a scan over the
underlying tasks. -/
theorem any_map_some (l : List Task) (p : Option Task → Bool) :
    (l.map some).any p = l.any (fun d => p (some d)) := by
  induction l with
  | nil => rfl
  | cons x xs ih => simp [List.any_cons, ih]

/-- Claim C7 (confirmed): for a task whose dependency and trigger
entries are all non-null handles, CanBeExecuted is true iff every
dependency IsFinished and now is at or past the time trigger and (the
trigger set is empty or at least one trigger IsFinished); the
definition evaluates the three conditions in the fixed source order
(dependency loop, then the clock comparison, then the trigger loop),
returning early on the first failing one. -/
theorem canBeExecuted_iff (t : Task) (now : Nat) (deps trigs : List Task)
    (hd : t.dependencies = deps.map some) (ht : t.triggers = trigs.map some) :
    t.CanBeExecuted now = true ↔
      ((∀ d ∈ deps, d.IsFinished = true) ∧ t.deadline ≤ now ∧
       (trigs = [] ∨ ∃ trg ∈ trigs, trg.IsFinished = true)) := by
  unfold Task.CanBeExecuted
  rw [hd, ht, any_map_some, any_map_some]
  have e1 : (fun d : Task => depBlocks (some d)) = (fun d : Task => !d.IsFinished) :=
    rfl
  have e2 : (fun d : Task => trigFires (some d)) = (fun d : Task => d.IsFinished) :=
    rfl
  rw [e1, e2]
  constructor
  · intro hcbe
    by_cases h1 : deps.any (fun d => !d.IsFinished) = true
    · rw [if_pos h1] at hcbe
      cases hcbe
    · rw [if_neg h1] at hcbe
      by_cases h2 : now < t.deadline
      · rw [if_pos h2] at hcbe
        cases hcbe
      · rw [if_neg h2] at hcbe
        refine ⟨?_, Nat.le_of_not_lt h2, ?_⟩
        · intro d hdm
          by_contra hnf
          refine h1 (List.any_eq_true.mpr ⟨d, hdm, ?_⟩)
          simp only [Bool.not_eq_true] at hnf
          simp [hnf]
        · by_cases h3 : trigs.any (fun d => d.IsFinished) = true
          · obtain ⟨trg, htm, hfin⟩ := List.any_eq_true.mp h3
            exact Or.inr ⟨trg, htm, hfin⟩
          · rw [if_neg h3] at hcbe
            refine Or.inl ?_
            rw [List.isEmpty_iff, List.map_eq_nil_iff] at hcbe
            exact hcbe
  · rintro ⟨hall, hle, htrg⟩
    have h1 : ¬ deps.any (fun d => !d.IsFinished) = true := by
      rw [Bool.not_eq_true, List.any_eq_false]
      intro d hdm
      simp [hall d hdm]
    rw [if_neg h1, if_neg (Nat.not_lt.mpr hle)]
    rcases htrg with hnil | ⟨trg, htm, hfin⟩
    · subst hnil
      rfl
    · rw [if_pos (List.any_eq_true.mpr ⟨trg, htm, hfin⟩)]

/-- Witness for C7 at a concrete task with no dependencies, no triggers
and deadline 0: it is executable at time 0. -/
theorem canBeExecuted_iff_witness :
    (Task.mk TaskStatus.kPending none [] [] 0).CanBeExecuted 0 = true :=
  (canBeExecuted_iff (Task.mk TaskStatus.kPending none [] [] 0) 0 [] []
    rfl rfl).mpr ⟨by simp, Nat.le_refl 0, Or.inl rfl⟩

/-- Claim C8 (code bug demonstrated): an interleaving of two workers of
RunTask at mutex granularity, both holding the same ready task handle
(it was enqueued twice), in which each passes its IsCanceled check
before either runs: the Run body of the single task is entered twice.
The claim-race requirement of the specification (Run at most once per
task, claim atomic with respect to other workers and Cancel) is the
documented intent, and design note 9 of the specification records that
the source lacks the required Running sentinel. -/
theorem run_executed_twice :
    (runSchedule [true, true, false, false, true, true, false, false]
      (RaceState.mk TaskStatus.kPending 0, 0, 0)).fst.runCount = 2 := rfl

/-- Claim C10 (confirmed): null handles are tolerated and asymmetric:
inserting a null dependency entry anywhere never changes CanBeExecuted
(a null dependency is skipped, never blocking readiness), a null
trigger entry never fires the trigger scan (the scan over the set with
a null inserted equals the scan without it), and AddDependency and
AddTrigger accept the null handle, appending it to the respective
deque; CanBeExecuted reads entries through the Option pattern only and
never dereferences a null one. -/
theorem null_handles_tolerated (s : TaskStatus) (e : ExcPtr)
    (d1 d2 tr trl1 trl2 : List (Option Task)) (dl now : Nat) (t : Task) :
    (Task.mk s e (d1 ++ none :: d2) tr dl).CanBeExecuted now =
      (Task.mk s e (d1 ++ d2) tr dl).CanBeExecuted now ∧
    (trl1 ++ none :: trl2).any trigFires = (trl1 ++ trl2).any trigFires ∧
    (t.AddDependency none).dependencies = t.dependencies ++ [none] ∧
    (t.AddTrigger none).triggers = t.triggers ++ [none] := by
  refine ⟨?_, ?_, ?_, ?_⟩
  · unfold Task.CanBeExecuted Task.dependencies Task.triggers Task.deadline
    simp [List.any_append, depBlocks]
  · simp [List.any_append, trigFires]
  · match t with
    | .mk ts te td ttr tdl => rfl
  · match t with
    | .mk ts te td ttr tdl => rfl

end Executors
